import Mathlib

/-!
Verification of the l3 plugin-host core against its specification.

The definitions below are a shallow embedding of the TypeScript sources:

* src/host/result.ts        — result data model (ErrorDetails, LoadResult, ...)
* src/host/host.ts          — PluginHost: invocation registry, terminate,
                              shutdown, worker pool maintenance
* src/host/worker_api.ts    — host/worker message shapes
* src/unnamed/part_006      — the worker runtime (load / invoke handlers)
* src/host/worker_context.ts — the per-invocation sandbox (InvocationContext)

Asynchronous code is modelled by explicit state passing: each await point of
the source becomes a function from state to state, and the environment events
the host awaits (worker load results, worker replies, abort signals) become
explicit arguments or operation lists.
-/

namespace L3

/-- A serializable error object (src/host/result.ts, ErrorDetails). -/
structure ErrorDetails where
  name : String
  message : String
  stack : Option String := none
deriving DecidableEq, Repr

/-- A logged message (src/host/result.ts, LogRecord). -/
structure LogRecord where
  loggerName : String
  level : String
  message : String
deriving DecidableEq, Repr

/-- Metadata about a fetch performed during an invocation
(src/host/result.ts, FetchRecord). -/
structure FetchRecord where
  scheme : String
  host : String
  method : String
  status : Nat
  statusText : String
  startTime : String
  endTime : String
  sentBytes : Nat
  receivedBytes : Nat
deriving DecidableEq, Repr

/-- The result of loading a plugin (src/host/result.ts, LoadResult). -/
structure LoadResult where
  success : Bool
  functionNames : List String
  error : Option ErrorDetails := none
deriving DecidableEq, Repr

/-- The result of a function invocation as the host actually constructs it in
PluginHost.completeInvoke (src/host/host.ts lines 133-147): a value, an
optional error and logs.  No fetches field is ever constructed there.
Plugin values are abstracted as strings (their JSON serialization). -/
structure InvokeResult where
  value : Option String
  error : Option ErrorDetails
  logs : List LogRecord
deriving DecidableEq, Repr

/-- The Partial InvokeResult argument of PluginHost.completeInvoke: every
field optional, defaults filled in by completeInvoke itself. -/
structure ResultInit where
  value : Option String := none
  error : Option ErrorDetails := none
  logs : Option (List LogRecord) := none
deriving DecidableEq, Repr

/-- The invocation registry of the host.  pending models the keys of the
map PluginHost.invoked (tokens whose deferred is still unresolved and still
in the map); delivered records the value each resolved deferred was resolved
with (what the awaiting caller of invoke receives). -/
structure Registry where
  pending : List String
  delivered : List (String × InvokeResult)
deriving DecidableEq, Repr

/-- Builds the InvokeResult delivered to the caller from a Partial result,
as PluginHost.completeInvoke does (src/host/host.ts lines 137-143):
value and logs defaulted, error copied only when present. -/
def mkInvokeResult (init : ResultInit) : InvokeResult :=
  { value := init.value
    logs := init.logs.getD []
    error := init.error }

/-- PluginHost.completeInvoke (src/host/host.ts lines 133-147): if the token
is still registered, resolve its deferred with the built result and remove
the token from the map; otherwise do nothing. -/
def completeInvoke (reg : Registry) (cid : String) (init : ResultInit) : Registry :=
  if cid ∈ reg.pending then
    { pending := reg.pending.filter (· ≠ cid)
      delivered := (cid, mkInvokeResult init) :: reg.delivered }
  else reg

/-- The five host states (src/host/host.ts, PluginHostStatus.state). -/
inductive HostState
  | loading
  | ready
  | failed
  | closing
  | closed
deriving DecidableEq, Repr

/-- The error completion synthesized by terminate
(src/host/host.ts lines 167-172). -/
def terminateDetails : ErrorDetails :=
  { name := "TerminateError", message := "Worker was terminated" }

/-- The error completion synthesized when the caller signal aborts
(src/host/host.ts lines 102-107). -/
def abortDetails : ErrorDetails :=
  { name := "AbortError", message := "Invocation was aborted" }

/-- The mutable state of a PluginHost that terminate, shutdown and the
invoke epilogue touch.  Workers are identified by numbers.  granted records
which waiter deferred was resolved with which worker (workerReady handing a
worker to a waiter); terminatedWorkers records the workers on which
Worker.terminate was called. -/
structure Host where
  state : HostState
  invoked : Registry
  workers : List Nat
  idle : List Nat
  waiters : List Nat
  granted : List (Nat × Nat)
  terminatedWorkers : List Nat
  reload : Bool
  shutdownSignal : Bool
deriving DecidableEq, Repr

/-- PluginHost.workerReady (src/host/host.ts lines 298-306): hand the worker
to the first waiter if any, else push it on the idle list. -/
def workerReady (h : Host) (w : Nat) : Host :=
  match h.waiters with
  | waiter :: rest =>
      { h with waiters := rest, granted := (waiter, w) :: h.granted }
  | [] => { h with idle := h.idle ++ [w] }

/-- PluginHost.workerFailed (src/host/host.ts lines 308-313): terminate the
worker, remove it from the pool and fire the reload signal. -/
def workerFailed (h : Host) (w : Nat) : Host :=
  { h with terminatedWorkers := w :: h.terminatedWorkers
           workers := h.workers.filter (· ≠ w)
           reload := true }

/-- The epilogue of PluginHost.invoke after the result deferred resolves
(src/host/host.ts lines 124-128): if the caller signal is aborted the
assigned worker is failed, otherwise it is recycled. -/
def finishInvoke (h : Host) (w : Nat) (aborted : Bool) : Host :=
  if aborted then workerFailed h w else workerReady h w

/-- The abort listener installed by PluginHost.invoke
(src/host/host.ts lines 101-108): completes the invocation with AbortError. -/
def abortListener (h : Host) (cid : String) : Host :=
  { h with invoked := completeInvoke h.invoked cid { error := some abortDetails } }

/-- PluginHost.nextWorker when a worker is taken from the idle list
(src/host/host.ts lines 281-285): pop the head of idle. -/
def nextWorkerIdle (h : Host) : Option Nat :=
  h.idle.head?

/-- PluginHost.terminate (src/host/host.ts lines 163-180): unless already
closed, transition to closed, complete every registered invocation with
TerminateError, clear the registry, terminate every worker in the pool and
resolve the shutdown deferred.  The workers set and the idle and waiter
queues are not modified. -/
def terminate (h : Host) : Host :=
  if h.state ≠ HostState.closed then
    let reg := h.invoked.pending.foldl
      (fun r cid => completeInvoke r cid { error := some terminateDetails })
      h.invoked
    { h with state := HostState.closed
             invoked := { pending := [], delivered := reg.delivered }
             terminatedWorkers := h.workers ++ h.terminatedWorkers
             shutdownSignal := true }
  else h

/-- PluginHost.shutdown (src/host/host.ts lines 150-160).  The await of
Promise.allSettled is modelled by the completions parameter: the environment
events (worker replies, aborts) that settle in-flight invocations while
shutdown waits, applied in order to the registry before terminate runs. -/
def shutdown (h : Host) (completions : List (String × ResultInit)) :
    Except String Host :=
  if h.state = HostState.closing then
    .error "invalid host state"
  else if h.state = HostState.closed then
    .ok h
  else
    let h1 := { h with state := HostState.closing }
    let h2 := completions.foldl
      (fun hh p => { hh with invoked := completeInvoke hh.invoked p.1 p.2 }) h1
    .ok (terminate h2)

/-- Number of workers that can fail to load before the host stops trying
(src/host/host.ts line 15). -/
def MAX_LOAD_FAILURES : Nat := 3

/-- Delay for the worker reload loop, in milliseconds
(src/host/host.ts line 12). -/
def RELOAD_DELAY_MS : Nat := 30000

/-- The state of the started deferred of the host: unresolved, resolved, or
rejected with Error("loading failed"). -/
inductive StartSignal
  | waiting
  | resolved
  | rejected
deriving DecidableEq, Repr

/-- The host state that the pool maintenance loop reads and writes
(src/host/host.ts).  loadSuccess and loadFailure model the fields declared
on lines 20-21; they are read by the status getter but, as maintainPool
never assigns them, no transition below writes them. -/
structure PoolSt where
  state : HostState
  started : StartSignal
  loadSuccess : Option LoadResult
  loadFailure : Option LoadResult
  failureCount : Nat
  workers : Nat
deriving DecidableEq, Repr

/-- The freshly constructed host (src/host/host.ts lines 49-60). -/
def initPool : PoolSt :=
  { state := HostState.loading
    started := StartSignal.waiting
    loadSuccess := none
    loadFailure := none
    failureCount := 0
    workers := 0 }

/-- One iteration of the inner while loop of PluginHost.maintainPool after a
created worker reports its LoadResult (src/host/host.ts lines 190-220).
On success the failure count resets, the worker joins the pool and a loading
host becomes ready, resolving the started deferred.  On failure the worker
is discarded, and on the third consecutive failure a loading host rejects
the started deferred and the state becomes failed.  Neither branch assigns
loadSuccess or loadFailure. -/
def poolLoadStep (st : PoolSt) (r : LoadResult) : PoolSt :=
  if ¬(st.state = HostState.loading ∨ st.state = HostState.ready) then
    st
  else if r.success then
    let st1 := { st with failureCount := 0, workers := st.workers + 1 }
    if st1.state = HostState.loading then
      { st1 with state := HostState.ready, started := StartSignal.resolved }
    else st1
  else
    let st1 := { st with failureCount := st.failureCount + 1 }
    if st1.failureCount ≥ MAX_LOAD_FAILURES then
      match st1.state with
      | HostState.loading =>
          { st1 with started := StartSignal.rejected, state := HostState.failed }
      | HostState.ready => { st1 with state := HostState.failed }
      | _ => st1
    else st1

/-- Folding maintainPool over a sequence of worker load outcomes. -/
def poolRun (st : PoolSt) (rs : List LoadResult) : PoolSt :=
  rs.foldl poolLoadStep st

/-- The observable part of PluginHostStatus that the status getter computes
from the load bookkeeping (src/host/host.ts lines 63-72): functionNames is
loadSuccess?.functionNames ?? [] and loadError is loadFailure?.error. -/
structure HostStatusView where
  state : HostState
  workers : Nat
  functionNames : List String
  loadError : Option ErrorDetails
deriving DecidableEq, Repr

/-- The status getter of PluginHost (src/host/host.ts lines 63-72). -/
def poolStatus (st : PoolSt) : HostStatusView :=
  { state := st.state
    workers := st.workers
    functionNames := (st.loadSuccess.map LoadResult.functionNames).getD []
    loadError := st.loadFailure.bind LoadResult.error }

/-- The outcome of awaiting PluginHost.ensureLoaded
(src/host/host.ts lines 75-77): pending while the started deferred is
unresolved, an ordinary return if it resolved, a rejection with
Error("loading failed") if maintainPool rejected it
(src/host/host.ts line 213). -/
def ensureLoaded (st : PoolSt) : Option (Except String Unit) :=
  match st.started with
  | StartSignal.waiting => none
  | StartSignal.resolved => some (.ok ())
  | StartSignal.rejected => some (.error "loading failed")

/-- The invoke request message (src/host/worker_api.ts lines 38-53).  cid is
the correlation id under which the host registers the invocation and posts
the message (src/host/host.ts lines 96-120); invocationId is the
caller-provided identifier declared by the message interface. -/
structure InvokeMessage where
  cid : String
  invocationId : Option String
  function : String
  argument : Option String
deriving DecidableEq, Repr

/-- The invoke reply the worker runtime posts back
(src/unnamed/part_006 lines 68-100 together with src/host/worker_api.ts):
value, error, the drained log buffer and the fetch records collected by the
sandbox logger. -/
structure InvokeResultMessage where
  cid : String
  value : Option String
  error : Option ErrorDetails
  logs : List LogRecord
  fetches : List FetchRecord
deriving DecidableEq, Repr

/-- The invoke branch of the onmessage handler installed by
PluginHost.createWorker (src/host/host.ts lines 259-269): build an
InvokeResult from the value, logs and error of the message — the fetches of
the message are not copied — and complete the registered invocation. -/
def hostReceiveInvoke (reg : Registry) (m : InvokeResultMessage) : Registry :=
  completeInvoke reg m.cid
    { value := m.value, error := m.error, logs := some m.logs }

/-- The call id the worker runtime opens the invocation sandbox with
(src/unnamed/part_006 line 89): msg.cid, the correlation id — not the
invocationId field of the message. -/
def invokeSandboxCallId (m : InvokeMessage) : String :=
  m.cid

/-- The call id the worker runtime opens the load-time sandbox with
(src/unnamed/part_006 line 51): the empty string. -/
def loadSandboxCallId : String := ""

/-- The extra request headers the wrapped fetch installs
(src/host/worker_context.ts lines 162-172): the Yext-Invocation-ID header
holding the context call id, only when the call id is non-empty. -/
def fetchHeaders (callId : String) : List (String × String) :=
  if callId ≠ "" then [("Yext-Invocation-ID", callId)] else []

/-- The four policies the sandbox assigns to ambient globals
(src/host/worker_context.ts lines 390-423). -/
inductive Policy
  | allow
  | forbid
  | wrap
  | replace
deriving DecidableEq, Repr

/-- The policy table of InvocationContext.globals
(src/host/worker_context.ts lines 248-387), transcribed entry by entry. -/
def globalPolicy : List (String × Policy) :=
  [("self", Policy.allow),
   ("globalThis", Policy.allow),
   ("WebAssembly", Policy.forbid),
   ("eval", Policy.forbid),
   ("queueMicrotask", Policy.forbid),
   ("fetch", Policy.wrap),
   ("setTimeout", Policy.replace),
   ("setInterval", Policy.replace),
   ("clearInterval", Policy.replace),
   ("clearTimeout", Policy.replace),
   ("name", Policy.allow),
   ("location", Policy.allow),
   ("navigator", Policy.forbid),
   ("close", Policy.forbid),
   ("onerror", Policy.forbid),
   ("postMessage", Policy.forbid),
   ("onmessage", Policy.forbid),
   ("onmessageerror", Policy.forbid),
   ("addEventListener", Policy.forbid),
   ("removeEventListener", Policy.forbid),
   ("dispatchEvent", Policy.forbid),
   ("Deno", Policy.forbid),
   ("parseInt", Policy.allow),
   ("parseFloat", Policy.allow),
   ("isNaN", Policy.allow),
   ("isFinite", Policy.allow),
   ("decodeURI", Policy.allow),
   ("decodeURIComponent", Policy.allow),
   ("encodeURI", Policy.allow),
   ("encodeURIComponent", Policy.allow),
   ("escape", Policy.allow),
   ("unescape", Policy.allow),
   ("atob", Policy.allow),
   ("btoa", Policy.allow),
   ("undefined", Policy.allow),
   ("console", Policy.allow),
   ("performance", Policy.allow),
   ("crypto", Policy.allow),
   ("NaN", Policy.allow),
   ("Infinity", Policy.allow),
   ("Symbol", Policy.allow),
   ("Object", Policy.allow),
   ("Function", Policy.allow),
   ("String", Policy.allow),
   ("Number", Policy.allow),
   ("Boolean", Policy.allow),
   ("Math", Policy.allow),
   ("Date", Policy.allow),
   ("RegExp", Policy.allow),
   ("Error", Policy.allow),
   ("EvalError", Policy.allow),
   ("RangeError", Policy.allow),
   ("ReferenceError", Policy.allow),
   ("SyntaxError", Policy.allow),
   ("TypeError", Policy.allow),
   ("URIError", Policy.allow),
   ("JSON", Policy.allow),
   ("Array", Policy.allow),
   ("Promise", Policy.allow),
   ("ArrayBuffer", Policy.allow),
   ("DataView", Policy.allow),
   ("Int8Array", Policy.allow),
   ("Uint8Array", Policy.allow),
   ("Uint8ClampedArray", Policy.allow),
   ("Int16Array", Policy.allow),
   ("Uint16Array", Policy.allow),
   ("Int32Array", Policy.allow),
   ("Uint32Array", Policy.allow),
   ("Float32Array", Policy.allow),
   ("Float64Array", Policy.allow),
   ("Intl", Policy.allow),
   ("Map", Policy.allow),
   ("WeakMap", Policy.allow),
   ("Set", Policy.allow),
   ("WeakSet", Policy.allow),
   ("Proxy", Policy.allow),
   ("Reflect", Policy.allow),
   ("SharedArrayBuffer", Policy.allow),
   ("Atomics", Policy.allow),
   ("BigInt", Policy.allow),
   ("BigInt64Array", Policy.allow),
   ("BigUint64Array", Policy.allow),
   ("AggregateError", Policy.allow),
   ("WeakRef", Policy.allow),
   ("FinalizationRegistry", Policy.allow),
   ("AbortSignal", Policy.allow),
   ("FileReader", Policy.allow),
   ("ReadableStreamDefaultReader", Policy.allow),
   ("ReadableStreamReader", Policy.allow),
   ("ReadableStreamDefaultController", Policy.allow),
   ("ReadableByteStreamController", Policy.allow),
   ("ReadableStream", Policy.allow),
   ("WritableStream", Policy.allow),
   ("WritableStreamDefaultWriter", Policy.allow),
   ("TransformStream", Policy.allow),
   ("BroadcastChannel", Policy.allow),
   ("SubtleCrypto", Policy.allow),
   ("CryptoKey", Policy.allow),
   ("CryptoKeyPair", Policy.allow)]

/-- A thrown JavaScript Error built with new Error(message): its name
property is the string Error. -/
def jsError (msg : String) : ErrorDetails :=
  { name := "Error", message := msg, stack := none }

/-- The outcome of reading a property through the descriptor installed by
the forbid policy: either the getter threw, or it returned the fail stub. -/
inductive ReadResult
  | stub (key : String)
  | threw (e : ErrorDetails)
deriving DecidableEq, Repr

/-- Reading a property whose descriptor was built by forbid
(src/host/worker_context.ts lines 396-404): when the captured global value
is a function the getter returns the fail closure without throwing;
otherwise the getter is the fail closure itself and the read throws. -/
def forbidRead (key : String) (isFunc : Bool) : ReadResult :=
  if isFunc then ReadResult.stub key
  else ReadResult.threw (jsError (key ++ " is not supported"))

/-- Invoking the fail stub obtained from a forbidden function-valued global
(src/host/worker_context.ts lines 397-399): always throws. -/
def stubInvoke (key : String) : Except ErrorDetails (Option String) :=
  .error (jsError (key ++ " is not supported"))

/-- Plugin code evaluating key(...) on a forbidden global: the read happens
first; if it yields the stub the call then throws. -/
def accessAndCall (key : String) (isFunc : Bool) :
    Except ErrorDetails (Option String) :=
  match forbidRead key isFunc with
  | ReadResult.threw e => .error e
  | ReadResult.stub k => stubInvoke k

/-- The thirteen globals assigned the forbid policy, paired with whether the
value captured from the worker global scope is a function (eval,
queueMicrotask, close, postMessage, onmessage — set to the runtime message
handler — addEventListener, removeEventListener and dispatchEvent are;
WebAssembly, Deno, navigator are plain objects and onerror and
onmessageerror are unset). -/
def forbiddenGlobals : List (String × Bool) :=
  [("eval", true),
   ("WebAssembly", false),
   ("queueMicrotask", true),
   ("Deno", false),
   ("navigator", false),
   ("close", true),
   ("postMessage", true),
   ("onmessage", true),
   ("onerror", false),
   ("onmessageerror", false),
   ("addEventListener", true),
   ("removeEventListener", true),
   ("dispatchEvent", true)]

/-- The try/catch epilogue of the worker runtime invoke handler
(src/unnamed/part_006 lines 88-97): a thrown error becomes result.error and
the value stays undefined. -/
def invokeOutcome (body : Except ErrorDetails (Option String)) :
    Option String × Option ErrorDetails :=
  match body with
  | .ok v => (v, none)
  | .error e => (none, some e)

/-- A property descriptor of the worker global scope, up to identity:
either a descriptor of the pristine environment, a policy descriptor
installed on set, or a data property injected for a custom global. -/
inductive Descriptor
  | orig (id : Nat)
  | installed (key : String)
  | injected (key : String)
deriving DecidableEq, Repr

/-- The worker ambient environment the sandbox manipulates: the own property
descriptors of globalThis, the context marker stored under the cid symbol,
the timer id allocator and the set of scheduled timers of the runtime, and
the fetch records emitted to the context logger. -/
structure Env where
  props : List (String × Descriptor)
  marker : Option String
  nextTimer : Nat
  liveTimers : List Nat
  emitted : List FetchRecord
deriving DecidableEq, Repr

/-- The InvocationContext fields
(src/host/worker_context.ts lines 59-83). -/
structure Ctx where
  cid : String
  customGlobals : List String
  origProps : List (String × Descriptor)
  timers : List Nat
  pendingFetches : List FetchRecord
deriving DecidableEq, Repr

/-- How InvocationContext.set rewrites one global property
(src/host/worker_context.ts lines 96-104): keys with a policy in the table
have the override applied — allow returns the descriptor unchanged, forbid,
wrap and replace install a new accessor — and keys outside the table are
left alone. -/
def overrideDescriptor (k : String) (d : Descriptor) : Descriptor :=
  match globalPolicy.lookup k with
  | none => d
  | some Policy.allow => d
  | some _ => Descriptor.installed k

/-- InvocationContext.set (src/host/worker_context.ts lines 86-113):
fails when a context is already active; captures every property descriptor
into orig; applies the policy overrides; stores the marker; injects the
custom globals, failing on any name that already exists. -/
def ctxSet (cid : String) (customs : List String) (env : Env) :
    Except String (Ctx × Env) :=
  if env.marker.isSome then
    .error "cannot reenter context"
  else if customs.any (fun k => (env.props.lookup k).isSome) then
    .error "cannot redefine global"
  else
    .ok ({ cid := cid
           customGlobals := customs
           origProps := env.props
           timers := []
           pendingFetches := [] },
         { env with
             props := env.props.map (fun p => (p.1, overrideDescriptor p.1 p.2))
               ++ customs.map (fun k => (k, Descriptor.injected k))
             marker := some cid })

/-- The operations plugin code can perform against the sandbox during an
invocation, as tracked by the context: registering a timer through the
replaced setTimeout or setInterval, cancelling one through the replaced
clearTimeout or clearInterval, starting a fetch (newFetchRecord adds the
record to the pending set), and fully reading a response body at some time
(logFetch stamps endTime, emits, and removes from the pending set). -/
inductive SandboxOp
  | setTimer
  | clearTimer (id : Nat)
  | beginFetch (r : FetchRecord)
  | readBody (r : FetchRecord) (t : String)
deriving DecidableEq, Repr

/-- logFetch (src/host/worker_context.ts lines 240-245): stamp endTime. -/
def stampEnd (r : FetchRecord) (t : String) : FetchRecord :=
  { r with endTime := t }

/-- Applying one sandbox operation to the context and environment,
following the replaced timer wrappers
(src/host/worker_context.ts lines 260-285) and the fetch record tracking
(lines 222-245). -/
def applyOp (s : Ctx × Env) (op : SandboxOp) : Ctx × Env :=
  match op with
  | SandboxOp.setTimer =>
      let id := s.2.nextTimer
      ({ s.1 with timers := id :: s.1.timers },
       { s.2 with nextTimer := id + 1, liveTimers := id :: s.2.liveTimers })
  | SandboxOp.clearTimer id =>
      ({ s.1 with timers := s.1.timers.filter (· ≠ id) },
       { s.2 with liveTimers := s.2.liveTimers.filter (· ≠ id) })
  | SandboxOp.beginFetch r =>
      ({ s.1 with pendingFetches := s.1.pendingFetches ++ [r] }, s.2)
  | SandboxOp.readBody r t =>
      if r ∈ s.1.pendingFetches then
        ({ s.1 with pendingFetches := s.1.pendingFetches.erase r },
         { s.2 with emitted := s.2.emitted ++ [stampEnd r t] })
      else s

/-- Applying a whole trace of sandbox operations. -/
def applyOps (s : Ctx × Env) (ops : List SandboxOp) : Ctx × Env :=
  ops.foldl applyOp s

/-- Redefining one property with Object.defineProperty: replace the entry
if the key exists, append it otherwise. -/
def upsert (ps : List (String × Descriptor)) (k : String) (d : Descriptor) :
    List (String × Descriptor) :=
  if (ps.lookup k).isSome then
    ps.map (fun p => if p.1 = k then (k, d) else p)
  else ps ++ [(k, d)]

/-- The restore loop of InvocationContext.close
(src/host/worker_context.ts lines 134-137): redefine every captured
descriptor back onto the environment. -/
def restoreAll (ps orig : List (String × Descriptor)) :
    List (String × Descriptor) :=
  orig.foldl (fun acc p => upsert acc p.1 p.2) ps

/-- InvocationContext.close (src/host/worker_context.ts lines 116-146):
fails when the context is not the active one; emits every still-pending
fetch record with endTime stamped now; deletes the custom globals and the
marker; restores the captured descriptors; then cancels every tracked timer
through the (by now restored) real clearInterval. -/
def ctxClose (ctx : Ctx) (env : Env) (t : String) : Except String Env :=
  if env.marker ≠ some ctx.cid then
    .error "context not active"
  else
    let env1 := { env with
      emitted := env.emitted ++ ctx.pendingFetches.map (fun r => stampEnd r t) }
    let env2 := { env1 with
      props := env1.props.filter (fun p => p.1 ∉ ctx.customGlobals)
      marker := none }
    let env3 := { env2 with props := restoreAll env2.props ctx.origProps }
    .ok { env3 with
      liveTimers := env3.liveTimers.filter (fun id => id ∉ ctx.timers) }

/-- A successful load of a plugin exporting one callable function. -/
def okLoad : LoadResult :=
  { success := true, functionNames := ["fn"], error := none }

/-- A failed load of a plugin whose module throws at top level. -/
def badLoad : LoadResult :=
  { success := false, functionNames := [], error := some (jsError "must fail to load") }

/-- A fetch record as produced by newFetchRecord once the response arrived. -/
def sampleFetch : FetchRecord :=
  { scheme := "http"
    host := "localhost"
    method := "GET"
    status := 200
    statusText := "OK"
    startTime := "2021-05-01T00:00:00.000Z"
    endTime := "2021-05-01T00:00:01.000Z"
    sentBytes := 0
    receivedBytes := 10 }

/-! Helper lemmas about the invocation registry. -/

theorem completeInvoke_not_pending (reg : Registry) (cid : String)
    (init : ResultInit) : cid ∉ (completeInvoke reg cid init).pending := by
  unfold completeInvoke
  by_cases h : cid ∈ reg.pending
  · simp [h, List.mem_filter]
  · simp [h]

theorem completeInvoke_pending_of_ne (reg : Registry) (c cid : String)
    (init : ResultInit) (hne : cid ≠ c) (hmem : cid ∈ reg.pending) :
    cid ∈ (completeInvoke reg c init).pending := by
  unfold completeInvoke
  by_cases h : c ∈ reg.pending
  · simp [h, List.mem_filter]
    exact ⟨hmem, hne⟩
  · simp [h]
    exact hmem

theorem completeInvoke_of_not_pending (reg : Registry) (cid : String)
    (init : ResultInit) (h : cid ∉ reg.pending) :
    completeInvoke reg cid init = reg := by
  unfold completeInvoke
  simp [h]

theorem completeInvoke_delivered_mono (reg : Registry) (cid : String)
    (init : ResultInit) (p : String × InvokeResult)
    (hp : p ∈ reg.delivered) : p ∈ (completeInvoke reg cid init).delivered := by
  unfold completeInvoke
  by_cases h : cid ∈ reg.pending
  · simp [h]
    right
    exact hp
  · simp [h]
    exact hp

theorem completeInvoke_delivers (reg : Registry) (cid : String)
    (init : ResultInit) (hmem : cid ∈ reg.pending) :
    (cid, mkInvokeResult init) ∈ (completeInvoke reg cid init).delivered := by
  unfold completeInvoke
  simp [hmem]

theorem foldl_complete_delivered_mono (l : List String) (reg : Registry)
    (init : ResultInit) (p : String × InvokeResult) (hp : p ∈ reg.delivered) :
    p ∈ (l.foldl (fun r c => completeInvoke r c init) reg).delivered := by
  induction l generalizing reg with
  | nil => exact hp
  | cons c rest ih =>
      exact ih (completeInvoke reg c init)
        (completeInvoke_delivered_mono reg c init p hp)

theorem foldl_complete_delivers (l : List String) (reg : Registry)
    (init : ResultInit) (cid : String) (hl : cid ∈ l)
    (hp : cid ∈ reg.pending) :
    (cid, mkInvokeResult init) ∈
      (l.foldl (fun r c => completeInvoke r c init) reg).delivered := by
  induction l generalizing reg with
  | nil => cases hl
  | cons c rest ih =>
      by_cases hc : cid = c
      · subst hc
        exact foldl_complete_delivered_mono rest _ init _
          (completeInvoke_delivers reg cid init hp)
      · cases hl with
        | head => exact absurd rfl hc
        | tail _ htl =>
            exact ih (completeInvoke reg c init) htl
              (completeInvoke_pending_of_ne reg c cid init hc hp)

/-! Claim theorems. -/

/-- Claim C1: the claim says that after ensureLoaded the host status
reflects the remembered load outcomes (functionNames of the last successful
LoadResult when ready, loadError of the last failed LoadResult when
failed).  The code never assigns loadSuccess or loadFailure, so a ready
host reports empty functionNames and a failed host reports no loadError,
contradicting the hosts own tests. -/
theorem c1_load_results_not_remembered :
    (poolRun initPool [okLoad]).state = HostState.ready ∧
    (poolStatus (poolRun initPool [okLoad])).functionNames = [] ∧
    okLoad.functionNames ≠ [] ∧
    (poolRun initPool [badLoad, badLoad, badLoad]).state = HostState.failed ∧
    (poolStatus (poolRun initPool [badLoad, badLoad, badLoad])).loadError = none ∧
    badLoad.error ≠ none := by
  decide

/-- Claim C2: the claim says ensureLoaded resolves in both outcomes.  In
the code the success path resolves the started deferred, but three
consecutive load failures reject it with Error("loading failed"), so
ensureLoaded rejects rather than resolving when the state becomes failed. -/
theorem c2_ensure_loaded_rejects_on_failure :
    ensureLoaded (poolRun initPool [okLoad]) = some (Except.ok ()) ∧
    (poolRun initPool [badLoad, badLoad, badLoad]).state = HostState.failed ∧
    ensureLoaded (poolRun initPool [badLoad, badLoad, badLoad]) =
      some (Except.error "loading failed") :=
  ⟨rfl, rfl, rfl⟩

/-- Claim C3: the claim says the InvokeResult returned to the caller
carries the fetches sequence of the invocation.  The host builds the
delivered result from value, logs and error only, so two worker replies
differing only in their fetches deliver the very same result: the fetch
records are dropped at the host boundary. -/
theorem c3_fetches_dropped_by_host :
    let m1 : InvokeResultMessage :=
      { cid := "t-1", value := some "\"GET /test\"", error := none,
        logs := [], fetches := [sampleFetch] }
    let m2 : InvokeResultMessage := { m1 with fetches := [] }
    let reg : Registry := { pending := ["t-1"], delivered := [] }
    m1.fetches ≠ m2.fetches ∧
    hostReceiveInvoke reg m1 = hostReceiveInvoke reg m2 ∧
    (hostReceiveInvoke reg m1).delivered =
      [("t-1", { value := some "\"GET /test\"", error := none, logs := [] })] := by
  decide

/-- Claim C4: the claim says the injected Yext-Invocation-ID header equals
the caller-supplied invocationId.  The worker runtime opens the sandbox
with msg.cid, the internal correlation id, so the header carries that token
and the invocationId field declared by the message interface is ignored.
The second half of the claim holds: at load time the call id is empty and
no header is added. -/
theorem c4_header_carries_internal_token :
    let m : InvokeMessage :=
      { cid := "t-1", invocationId := some "invoke-id",
        function := "doFetch", argument := none }
    fetchHeaders (invokeSandboxCallId m) = [("Yext-Invocation-ID", "t-1")] ∧
    some (invokeSandboxCallId m) ≠ m.invocationId ∧
    fetchHeaders loadSandboxCallId = [] := by
  decide

/-- Claim C10: completing an invocation resolves the deferred registered
for its token and removes the token from the map, so a later completion
attempt with the same token is ignored and cannot change the delivered
result. -/
theorem c10_complete_at_most_once (reg : Registry) (cid : String)
    (r1 r2 : ResultInit) (h : cid ∈ reg.pending) :
    (cid, mkInvokeResult r1) ∈ (completeInvoke reg cid r1).delivered ∧
    cid ∉ (completeInvoke reg cid r1).pending ∧
    completeInvoke (completeInvoke reg cid r1) cid r2 =
      completeInvoke reg cid r1 := by
  refine ⟨completeInvoke_delivers reg cid r1 h,
    completeInvoke_not_pending reg cid r1, ?_⟩
  have hnp := completeInvoke_not_pending reg cid r1
  exact completeInvoke_of_not_pending _ cid r2 hnp

/-- Witness for c10_complete_at_most_once at a concrete registry. -/
theorem c10_complete_at_most_once_witness :
    let reg : Registry := { pending := ["a"], delivered := [] }
    let r1 : ResultInit := { value := some "1" }
    let r2 : ResultInit := { value := some "2" }
    ("a", mkInvokeResult r1) ∈ (completeInvoke reg "a" r1).delivered ∧
    "a" ∉ (completeInvoke reg "a" r1).pending ∧
    completeInvoke (completeInvoke reg "a" r1) "a" r2 =
      completeInvoke reg "a" r1 :=
  c10_complete_at_most_once _ "a" _ _ (by decide)

theorem terminate_of_closed (h : Host) (hc : h.state = HostState.closed) :
    terminate h = h := by
  simp [terminate, hc]

theorem terminate_unfold (h : Host) (hc : h.state ≠ HostState.closed) :
    terminate h =
      { h with
          state := HostState.closed,
          invoked :=
            { pending := [],
              delivered := (h.invoked.pending.foldl
                (fun r cid =>
                  completeInvoke r cid { error := some terminateDetails })
                h.invoked).delivered },
          terminatedWorkers := h.workers ++ h.terminatedWorkers,
          shutdownSignal := true } := by
  simp [terminate, hc]

theorem terminate_pending_nil (h : Host) (hne : h.state ≠ HostState.closed) :
    (terminate h).invoked.pending = [] := by
  rw [terminate_unfold h hne]

theorem terminate_state_closed (h : Host) :
    (terminate h).state = HostState.closed := by
  by_cases hc : h.state = HostState.closed
  · rw [terminate_of_closed h hc]; exact hc
  · rw [terminate_unfold h hc]

theorem shutdownFold_state (completions : List (String × ResultInit))
    (h : Host) :
    (completions.foldl
      (fun hh p => { hh with invoked := completeInvoke hh.invoked p.1 p.2 })
      h).state = h.state := by
  induction completions generalizing h with
  | nil => rfl
  | cons c rest ih => exact ih _

/-- Claim C5: when the caller abort signal fires before completion, the
delivered result carries the AbortError details, and the worker assigned to
the invocation is terminated and removed from the pool — it is not handed
to any waiter, does not return to the idle queue, and can never be popped
as the next idle worker for a later invocation. -/
theorem c5_abort_terminates_assigned_worker (h : Host) (cid : String)
    (w : Nat) (hp : cid ∈ h.invoked.pending) (hw : w ∉ h.idle) :
    (cid, mkInvokeResult { error := some abortDetails }) ∈
      (finishInvoke (abortListener h cid) w true).invoked.delivered ∧
    (mkInvokeResult { error := some abortDetails }).error =
      some { name := "AbortError", message := "Invocation was aborted" } ∧
    w ∈ (finishInvoke (abortListener h cid) w true).terminatedWorkers ∧
    w ∉ (finishInvoke (abortListener h cid) w true).workers ∧
    w ∉ (finishInvoke (abortListener h cid) w true).idle ∧
    (finishInvoke (abortListener h cid) w true).granted = h.granted ∧
    (finishInvoke (abortListener h cid) w true).waiters = h.waiters ∧
    nextWorkerIdle (finishInvoke (abortListener h cid) w true) ≠ some w := by
  have hfin : finishInvoke (abortListener h cid) w true =
      { h with
          invoked := completeInvoke h.invoked cid { error := some abortDetails }
          terminatedWorkers := w :: h.terminatedWorkers
          workers := h.workers.filter (· ≠ w)
          reload := true } := by
    simp [finishInvoke, workerFailed, abortListener]
  rw [hfin]
  refine ⟨completeInvoke_delivers _ _ _ hp, rfl, List.mem_cons_self _ _, ?_,
    hw, rfl, rfl, ?_⟩
  · intro hmem
    have := (List.mem_filter.mp hmem).2
    simp at this
  · intro heq
    exact hw (List.mem_of_mem_head? (Option.mem_def.mpr heq))

/-- Witness for c5_abort_terminates_assigned_worker: a ready host with one
registered invocation and its assigned worker 7. -/
theorem c5_abort_terminates_assigned_worker_witness :
    let h : Host :=
      { state := HostState.ready
        invoked := { pending := ["a"], delivered := [] }
        workers := [7]
        idle := []
        waiters := []
        granted := []
        terminatedWorkers := []
        reload := false
        shutdownSignal := false }
    (("a", mkInvokeResult { error := some abortDetails }) ∈
      (finishInvoke (abortListener h "a") 7 true).invoked.delivered) ∧
    7 ∈ (finishInvoke (abortListener h "a") 7 true).terminatedWorkers ∧
    7 ∉ (finishInvoke (abortListener h "a") 7 true).workers ∧
    nextWorkerIdle (finishInvoke (abortListener h "a") 7 true) ≠ some 7 := by
  have := c5_abort_terminates_assigned_worker
    { state := HostState.ready
      invoked := { pending := ["a"], delivered := [] }
      workers := [7]
      idle := []
      waiters := []
      granted := []
      terminatedWorkers := []
      reload := false
      shutdownSignal := false } "a" 7 (by decide) (by decide)
  exact ⟨this.1, this.2.2.1, this.2.2.2.1, this.2.2.2.2.2.2.2⟩

/-- Counterexample to claim C6: terminate does not drop the idle and
waiter queues.  On a ready host with one idle worker and one waiter the
call transitions to closed but leaves both queues as they were. -/
theorem c6_terminate_keeps_queues_counterexample :
    let h : Host :=
      { state := HostState.ready
        invoked := { pending := [], delivered := [] }
        workers := [1]
        idle := [1]
        waiters := [5]
        granted := []
        terminatedWorkers := []
        reload := false
        shutdownSignal := false }
    (terminate h).state = HostState.closed ∧
    (terminate h).idle = [1] ∧ (terminate h).idle ≠ [] ∧
    (terminate h).waiters = [5] ∧ (terminate h).waiters ≠ [] := by
  decide

/-- Claim C6 (amended): terminate is idempotent; the first call on a
non-closed host transitions to closed, resolves every still-registered
invocation with the TerminateError details, terminates every live worker
and clears the invocation registry — but it leaves the idle and waiter
queues untouched (the claim said they are dropped). -/
theorem c6_terminate_idempotent (h : Host)
    (hne : h.state ≠ HostState.closed) :
    terminate (terminate h) = terminate h ∧
    (terminate h).state = HostState.closed ∧
    (terminate h).invoked.pending = [] ∧
    (∀ cid ∈ h.invoked.pending,
      (cid, mkInvokeResult { error := some terminateDetails }) ∈
        (terminate h).invoked.delivered) ∧
    (∀ w ∈ h.workers, w ∈ (terminate h).terminatedWorkers) ∧
    (terminate h).idle = h.idle ∧
    (terminate h).waiters = h.waiters := by
  have heq := terminate_unfold h hne
  refine ⟨terminate_of_closed _ (terminate_state_closed h),
    terminate_state_closed h, ?_, ?_, ?_, ?_, ?_⟩
  · rw [heq]
  · intro cid hcid
    rw [heq]
    exact foldl_complete_delivers _ _ _ _ hcid hcid
  · intro w hwmem
    rw [heq]
    exact List.mem_append_left _ hwmem
  · rw [heq]
  · rw [heq]

/-- Witness for c6_terminate_idempotent on a ready host with one pending
invocation, one worker and non-empty queues. -/
theorem c6_terminate_idempotent_witness :
    let h : Host :=
      { state := HostState.ready
        invoked := { pending := ["a"], delivered := [] }
        workers := [1]
        idle := [2]
        waiters := [5]
        granted := []
        terminatedWorkers := []
        reload := false
        shutdownSignal := false }
    terminate (terminate h) = terminate h ∧
    (terminate h).state = HostState.closed ∧
    (terminate h).invoked.pending = [] ∧
    (∀ cid ∈ h.invoked.pending,
      (cid, mkInvokeResult { error := some terminateDetails }) ∈
        (terminate h).invoked.delivered) ∧
    (∀ w ∈ h.workers, w ∈ (terminate h).terminatedWorkers) ∧
    (terminate h).idle = h.idle ∧
    (terminate h).waiters = h.waiters :=
  c6_terminate_idempotent _ (by decide)

/-- Claim C7: shutdown rejects with the state-precondition error while
closing, is a no-op when already closed, and otherwise transitions to
closing, lets the in-flight invocations settle (the completions argument),
then terminates, converging to closed with an empty registry. -/
theorem c7_shutdown_converges (h : Host)
    (completions : List (String × ResultInit)) :
    (h.state = HostState.closing →
      shutdown h completions = .error "invalid host state") ∧
    (h.state = HostState.closed → shutdown h completions = .ok h) ∧
    (h.state ≠ HostState.closing → h.state ≠ HostState.closed →
      ∃ h2, shutdown h completions = .ok h2 ∧
        h2.state = HostState.closed ∧ h2.invoked.pending = []) := by
  refine ⟨fun hc => by simp [shutdown, hc], ?_, ?_⟩
  · intro hc
    have hnc : h.state ≠ HostState.closing := by rw [hc]; decide
    simp [shutdown, hc, hnc]
  · intro h1 h2
    refine ⟨terminate (completions.foldl
        (fun hh p => { hh with invoked := completeInvoke hh.invoked p.1 p.2 })
        { h with state := HostState.closing }),
      by simp [shutdown, h1, h2], terminate_state_closed _,
      terminate_pending_nil _ ?_⟩
    rw [shutdownFold_state]
    exact (by decide : HostState.closing ≠ HostState.closed)

/-- Witness for c7_shutdown_converges covering all three branches at
concrete hosts: one closing, one closed, one ready with a pending
invocation settled by a worker reply. -/
theorem c7_shutdown_converges_witness :
    let base : Host :=
      { state := HostState.ready
        invoked := { pending := ["a"], delivered := [] }
        workers := [1]
        idle := []
        waiters := []
        granted := []
        terminatedWorkers := []
        reload := false
        shutdownSignal := false }
    let comps : List (String × ResultInit) := [("a", { value := some "50" })]
    shutdown { base with state := HostState.closing } comps =
      .error "invalid host state" ∧
    shutdown { base with state := HostState.closed } comps =
      .ok { base with state := HostState.closed } ∧
    (∃ h2, shutdown base comps = .ok h2 ∧
      h2.state = HostState.closed ∧ h2.invoked.pending = []) := by
  refine ⟨(c7_shutdown_converges _ _).1 rfl,
    (c7_shutdown_converges _ _).2.1 rfl,
    (c7_shutdown_converges _ _).2.2 (by decide) (by decide)⟩

/-- Counterexample to claim C9: a read alone does not throw for every
forbidden capability.  eval is function-valued, so the installed getter
returns the fail stub instead of throwing; only invoking it throws. -/
theorem c9_read_of_eval_does_not_throw_counterexample :
    ("eval", true) ∈ forbiddenGlobals ∧
    forbidRead "eval" true = ReadResult.stub "eval" ∧
    ∀ e : ErrorDetails, forbidRead "eval" true ≠ ReadResult.threw e := by
  refine ⟨by decide, by decide, ?_⟩
  intro e h
  cases h

/-- Claim C9 (amended): every capability in the forbid list carries the
forbid policy; evaluating it as a call always throws Error with message
"<name> is not supported" — for non-function values the read itself throws,
for function values the read returns a stub whose invocation throws — so an
invocation that calls eval completes with error.message equal to
"eval is not supported". -/
theorem c9_forbidden_capabilities_throw (k : String) (f : Bool)
    (hk : (k, f) ∈ forbiddenGlobals) :
    globalPolicy.lookup k = some Policy.forbid ∧
    accessAndCall k f = .error (jsError (k ++ " is not supported")) ∧
    (f = false →
      forbidRead k f = ReadResult.threw (jsError (k ++ " is not supported"))) ∧
    invokeOutcome (accessAndCall "eval" true) =
      (none, some (jsError "eval is not supported")) := by
  fin_cases hk <;> refine ⟨by decide, rfl, ?_, rfl⟩ <;> intro hff <;>
    first
      | rfl
      | exact absurd hff (by decide)

/-- Witness for c9_forbidden_capabilities_throw at the eval entry. -/
theorem c9_forbidden_capabilities_throw_witness :
    globalPolicy.lookup "eval" = some Policy.forbid ∧
    accessAndCall "eval" true = .error (jsError ("eval" ++ " is not supported")) ∧
    (true = false →
      forbidRead "eval" true =
        ReadResult.threw (jsError ("eval" ++ " is not supported"))) ∧
    invokeOutcome (accessAndCall "eval" true) =
      (none, some (jsError "eval is not supported")) :=
  c9_forbidden_capabilities_throw "eval" true (by decide)

/-! Helper lemmas for the sandbox model. -/

theorem applyOp_fixed (s : Ctx × Env) (op : SandboxOp) :
    (applyOp s op).1.cid = s.1.cid ∧
    (applyOp s op).1.customGlobals = s.1.customGlobals ∧
    (applyOp s op).1.origProps = s.1.origProps ∧
    (applyOp s op).2.marker = s.2.marker ∧
    (applyOp s op).2.props = s.2.props := by
  cases op with
  | setTimer => exact ⟨rfl, rfl, rfl, rfl, rfl⟩
  | clearTimer i => exact ⟨rfl, rfl, rfl, rfl, rfl⟩
  | beginFetch r => exact ⟨rfl, rfl, rfl, rfl, rfl⟩
  | readBody r t =>
      by_cases h : r ∈ s.1.pendingFetches <;> simp [applyOp, h]

theorem applyOps_fixed (ops : List SandboxOp) (s : Ctx × Env) :
    (applyOps s ops).1.cid = s.1.cid ∧
    (applyOps s ops).1.customGlobals = s.1.customGlobals ∧
    (applyOps s ops).1.origProps = s.1.origProps ∧
    (applyOps s ops).2.marker = s.2.marker ∧
    (applyOps s ops).2.props = s.2.props := by
  induction ops generalizing s with
  | nil => exact ⟨rfl, rfl, rfl, rfl, rfl⟩
  | cons op rest ih =>
      have h1 := applyOp_fixed s op
      have h2 := ih (applyOp s op)
      exact ⟨h2.1.trans h1.1, h2.2.1.trans h1.2.1, h2.2.2.1.trans h1.2.2.1,
        h2.2.2.2.1.trans h1.2.2.2.1, h2.2.2.2.2.trans h1.2.2.2.2⟩

theorem applyOp_timers (start : Nat) (s : Ctx × Env) (op : SandboxOp)
    (hn : start ≤ s.2.nextTimer)
    (hinv : ∀ id ∈ s.2.liveTimers, start ≤ id → id ∈ s.1.timers) :
    start ≤ (applyOp s op).2.nextTimer ∧
    ∀ id ∈ (applyOp s op).2.liveTimers, start ≤ id →
      id ∈ (applyOp s op).1.timers := by
  cases op with
  | setTimer =>
      refine ⟨by simp [applyOp]; omega, ?_⟩
      intro id hid hle
      simp [applyOp] at hid ⊢
      rcases hid with h | h
      · exact Or.inl h
      · exact Or.inr (hinv id h hle)
  | clearTimer i =>
      refine ⟨hn, ?_⟩
      intro id hid hle
      simp [applyOp, List.mem_filter] at hid ⊢
      exact ⟨hinv id hid.1 hle, hid.2⟩
  | beginFetch r => exact ⟨hn, hinv⟩
  | readBody r t =>
      by_cases h : r ∈ s.1.pendingFetches <;> simp [applyOp, h] <;>
        exact ⟨hn, hinv⟩

theorem applyOps_timers (start : Nat) (ops : List SandboxOp) (s : Ctx × Env)
    (hn : start ≤ s.2.nextTimer)
    (hinv : ∀ id ∈ s.2.liveTimers, start ≤ id → id ∈ s.1.timers) :
    start ≤ (applyOps s ops).2.nextTimer ∧
    ∀ id ∈ (applyOps s ops).2.liveTimers, start ≤ id →
      id ∈ (applyOps s ops).1.timers := by
  induction ops generalizing s with
  | nil => exact ⟨hn, hinv⟩
  | cons op rest ih =>
      have h1 := applyOp_timers start s op hn hinv
      exact ih (applyOp s op) h1.1 h1.2

theorem lookup_map_replace (ps : List (String × Descriptor)) (k : String)
    (d : Descriptor) (h : (ps.lookup k).isSome) :
    ((ps.map fun p => if p.1 = k then (k, d) else p).lookup k) = some d := by
  induction ps with
  | nil => simp at h
  | cons a tl ih =>
      obtain ⟨a1, a2⟩ := a
      by_cases ha : a1 = k
      · subst ha
        simp [List.lookup_cons_self]
      · have hne : k ≠ a1 := fun hkk => ha hkk.symm
        simp only [List.lookup_cons, beq_false_of_ne hne] at h
        simp [ha, List.lookup_cons, beq_false_of_ne hne]
        exact ih h

theorem lookup_map_replace_other (ps : List (String × Descriptor))
    (k k' : String) (d' : Descriptor) (hne : k ≠ k') :
    ((ps.map fun p => if p.1 = k' then (k', d') else p).lookup k) =
      ps.lookup k := by
  induction ps with
  | nil => simp
  | cons a tl ih =>
      obtain ⟨a1, a2⟩ := a
      by_cases ha : a1 = k'
      · subst ha
        simp [List.lookup_cons, beq_false_of_ne hne]
        exact ih
      · by_cases hak : a1 = k
        · subst hak
          simp [ha, List.lookup_cons_self]
        · have hka : k ≠ a1 := fun hkk => hak hkk.symm
          simp [ha, List.lookup_cons, beq_false_of_ne hka]
          exact ih

theorem lookup_append_of_none (ps qs : List (String × Descriptor))
    (k : String) (h : ps.lookup k = none) :
    (ps ++ qs).lookup k = qs.lookup k := by
  induction ps with
  | nil => rfl
  | cons a tl ih =>
      obtain ⟨a1, a2⟩ := a
      by_cases hak : k = a1
      · subst hak
        rw [List.lookup_cons_self] at h
        cases h
      · rw [List.cons_append]
        simp only [List.lookup_cons, beq_false_of_ne hak] at h ⊢
        exact ih h

theorem lookup_append_of_some (ps qs : List (String × Descriptor))
    (k : String) (v : Descriptor) (h : ps.lookup k = some v) :
    (ps ++ qs).lookup k = some v := by
  induction ps with
  | nil => simp at h
  | cons a tl ih =>
      obtain ⟨a1, a2⟩ := a
      by_cases hak : k = a1
      · subst hak
        rw [List.lookup_cons_self] at h
        rw [List.cons_append, List.lookup_cons_self]
        exact h
      · rw [List.cons_append]
        simp only [List.lookup_cons, beq_false_of_ne hak] at h ⊢
        exact ih h

theorem upsert_lookup_self (ps : List (String × Descriptor)) (k : String)
    (d : Descriptor) : (upsert ps k d).lookup k = some d := by
  unfold upsert
  by_cases h : (ps.lookup k).isSome
  · rw [if_pos h]
    exact lookup_map_replace ps k d h
  · rw [if_neg h]
    have hnone : ps.lookup k = none := Option.not_isSome_iff_eq_none.mp h
    rw [lookup_append_of_none ps _ k hnone]
    exact List.lookup_cons_self

theorem upsert_lookup_other (ps : List (String × Descriptor))
    (k k' : String) (d' : Descriptor) (hne : k ≠ k') :
    (upsert ps k' d').lookup k = ps.lookup k := by
  unfold upsert
  by_cases h : (ps.lookup k').isSome
  · rw [if_pos h]
    exact lookup_map_replace_other ps k k' d' hne
  · rw [if_neg h]
    cases hc : ps.lookup k with
    | none =>
        rw [lookup_append_of_none ps _ k hc]
        simp [List.lookup_cons, beq_false_of_ne hne]
    | some v => exact lookup_append_of_some ps _ k v hc

theorem restoreAll_lookup_not_mem (orig : List (String × Descriptor))
    (ps : List (String × Descriptor)) (k : String)
    (hk : ∀ d, (k, d) ∉ orig) :
    (restoreAll ps orig).lookup k = ps.lookup k := by
  induction orig generalizing ps with
  | nil => rfl
  | cons a rest ih =>
      have hne : k ≠ a.1 := by
        intro hkk
        exact hk a.2 (by rw [hkk]; exact List.mem_cons_self _ _)
      have hrest : ∀ d, (k, d) ∉ rest := fun d hd =>
        hk d (List.mem_cons_of_mem _ hd)
      show (restoreAll (upsert ps a.1 a.2) rest).lookup k = ps.lookup k
      rw [ih (upsert ps a.1 a.2) hrest]
      exact upsert_lookup_other ps k a.1 a.2 hne

theorem restoreAll_lookup_mem (orig : List (String × Descriptor))
    (ps : List (String × Descriptor)) (k : String) (d : Descriptor)
    (hnd : (orig.map Prod.fst).Nodup) (hmem : (k, d) ∈ orig) :
    (restoreAll ps orig).lookup k = some d := by
  induction orig generalizing ps with
  | nil => cases hmem
  | cons a rest ih =>
      rw [List.map_cons, List.nodup_cons] at hnd
      cases hmem with
      | head =>
          have hrest : ∀ d2, (k, d2) ∉ rest := by
            intro d2 hd2
            have hmem2 : k ∈ rest.map Prod.fst :=
              List.mem_map_of_mem Prod.fst hd2
            exact hnd.1 hmem2
          show (restoreAll (upsert ps k d) rest).lookup k = some d
          rw [restoreAll_lookup_not_mem rest _ k hrest]
          exact upsert_lookup_self ps k d
      | tail _ htl =>
          exact ih (upsert ps a.1 a.2) hnd.2 htl

theorem lookup_filter_out (ps : List (String × Descriptor))
    (customs : List String) (k : String) (hk : k ∈ customs) :
    ((ps.filter fun p => p.1 ∉ customs).lookup k) = none := by
  induction ps with
  | nil => rfl
  | cons a tl ih =>
      obtain ⟨a1, a2⟩ := a
      by_cases ha : a1 ∈ customs
      · rw [List.filter_cons_of_neg]
        · exact ih
        · simp [ha]
      · have hka : k ≠ a1 := fun hkk => ha (hkk ▸ hk)
        rw [List.filter_cons_of_pos]
        · rw [List.lookup_cons, beq_false_of_ne hka]
          exact ih
        · simp [ha]

theorem not_mem_of_lookup_eq_none (ps : List (String × Descriptor))
    (k : String) (h : ps.lookup k = none) : ∀ d, (k, d) ∉ ps := by
  induction ps with
  | nil => intro d hd; cases hd
  | cons a tl ih =>
      obtain ⟨a1, a2⟩ := a
      intro d hd
      by_cases hak : k = a1
      · subst hak
        rw [List.lookup_cons_self] at h
        cases h
      · simp only [List.lookup_cons, beq_false_of_ne hak] at h
        cases hd with
        | head => exact hak rfl
        | tail _ htl => exact ih h d htl

/-- Claim C8: closing an invocation context emits every still-pending
fetch record stamped with the close-time endTime, cancels every timer
registered during the invocation (none can fire afterwards), removes every
injected custom global, and restores every captured original property
descriptor. -/
theorem c8_close_restores_environment
    (env0 : Env) (cid : String) (customs : List String)
    (ops : List SandboxOp) (t : String) (ctx1 : Ctx) (env1 : Env)
    (hset : ctxSet cid customs env0 = .ok (ctx1, env1))
    (hold : ∀ id ∈ env0.liveTimers, id < env0.nextTimer)
    (hnd : (env0.props.map Prod.fst).Nodup) :
    ∃ envF,
      ctxClose (applyOps (ctx1, env1) ops).1 (applyOps (ctx1, env1) ops).2 t
        = .ok envF ∧
      (∀ r ∈ (applyOps (ctx1, env1) ops).1.pendingFetches,
        stampEnd r t ∈ envF.emitted) ∧
      (∀ id, env0.nextTimer ≤ id → id ∉ envF.liveTimers) ∧
      (∀ k ∈ customs, envF.props.lookup k = none) ∧
      (∀ k d, (k, d) ∈ env0.props → envF.props.lookup k = some d) := by
  unfold ctxSet at hset
  split at hset
  · cases hset
  split at hset
  · cases hset
  rename_i hm hcu
  rw [Except.ok.injEq, Prod.mk.injEq] at hset
  obtain ⟨hctx, henv⟩ := hset
  have hc_cid : ctx1.cid = cid := by rw [← hctx]
  have hc_cust : ctx1.customGlobals = customs := by rw [← hctx]
  have hc_orig : ctx1.origProps = env0.props := by rw [← hctx]
  have he_marker : env1.marker = some cid := by rw [← henv]
  have he_next : env1.nextTimer = env0.nextTimer := by rw [← henv]
  have he_live : env1.liveTimers = env0.liveTimers := by rw [← henv]
  obtain ⟨hcid, hcust, horig, hmark, hprops⟩ :=
    applyOps_fixed ops (ctx1, env1)
  have hcid2 : (applyOps (ctx1, env1) ops).1.cid = ctx1.cid := hcid
  have hcust2 : (applyOps (ctx1, env1) ops).1.customGlobals =
    ctx1.customGlobals := hcust
  have horig2 : (applyOps (ctx1, env1) ops).1.origProps =
    ctx1.origProps := horig
  have hmark2 : (applyOps (ctx1, env1) ops).2.marker = env1.marker := hmark
  obtain ⟨hnext, hinv⟩ :=
    applyOps_timers env0.nextTimer ops (ctx1, env1)
      (by rw [show (ctx1, env1).2.nextTimer = env1.nextTimer from rfl, he_next])
      (by intro id hid hle
          rw [show (ctx1, env1).2.liveTimers = env1.liveTimers from rfl,
            he_live] at hid
          exact absurd (hold id hid) (by omega))
  refine ⟨{ (applyOps (ctx1, env1) ops).2 with
      emitted := (applyOps (ctx1, env1) ops).2.emitted
        ++ (applyOps (ctx1, env1) ops).1.pendingFetches.map
          (fun r => stampEnd r t)
      marker := none
      props := restoreAll
        ((applyOps (ctx1, env1) ops).2.props.filter
          (fun p => p.1 ∉ (applyOps (ctx1, env1) ops).1.customGlobals))
        (applyOps (ctx1, env1) ops).1.origProps
      liveTimers := (applyOps (ctx1, env1) ops).2.liveTimers.filter
        (fun id => id ∉ (applyOps (ctx1, env1) ops).1.timers) },
    ?_, ?_, ?_, ?_, ?_⟩
  · unfold ctxClose
    rw [if_neg]
    intro hne
    exact hne (by rw [hmark2, hcid2, he_marker, hc_cid])
  · intro r hr
    show stampEnd r t ∈
      (applyOps (ctx1, env1) ops).2.emitted
        ++ (applyOps (ctx1, env1) ops).1.pendingFetches.map
          (fun r => stampEnd r t)
    exact List.mem_append_right _ (List.mem_map_of_mem _ hr)
  · intro id hle hmem
    have hmem2 : id ∈ ((applyOps (ctx1, env1) ops).2.liveTimers.filter
        (fun i => i ∉ (applyOps (ctx1, env1) ops).1.timers)) := hmem
    rw [List.mem_filter] at hmem2
    have hintm := hinv id hmem2.1 hle
    have := hmem2.2
    simp at this
    exact this hintm
  · intro k hkc
    have hnone : env0.props.lookup k = none := by
      by_contra hcon
      apply hcu
      rw [List.any_eq_true]
      exact ⟨k, hkc, Option.ne_none_iff_isSome.mp hcon⟩
    have hnm := not_mem_of_lookup_eq_none env0.props k hnone
    show (restoreAll ((applyOps (ctx1, env1) ops).2.props.filter
        (fun p => p.1 ∉ (applyOps (ctx1, env1) ops).1.customGlobals))
        (applyOps (ctx1, env1) ops).1.origProps).lookup k = none
    rw [horig2, hc_orig, hcust2, hc_cust]
    rw [restoreAll_lookup_not_mem env0.props _ k hnm]
    exact lookup_filter_out _ customs k hkc
  · intro k d hmem
    show (restoreAll ((applyOps (ctx1, env1) ops).2.props.filter
        (fun p => p.1 ∉ (applyOps (ctx1, env1) ops).1.customGlobals))
        (applyOps (ctx1, env1) ops).1.origProps).lookup k = some d
    rw [horig2, hc_orig]
    exact restoreAll_lookup_mem env0.props _ k d hnd hmem

/-- Witness for c8_close_restores_environment: a three-property
environment, one custom global, and a trace registering two timers,
clearing one, and starting one fetch whose body is never read. -/
theorem c8_close_restores_environment_witness :
    let env0 : Env :=
      { props := [("eval", Descriptor.orig 0), ("setTimeout", Descriptor.orig 1),
          ("Math", Descriptor.orig 2)]
        marker := none
        nextTimer := 5
        liveTimers := [3]
        emitted := [] }
    let ctx1 : Ctx :=
      { cid := "call-1"
        customGlobals := ["MY_KEY"]
        origProps := [("eval", Descriptor.orig 0),
          ("setTimeout", Descriptor.orig 1), ("Math", Descriptor.orig 2)]
        timers := []
        pendingFetches := [] }
    let env1 : Env :=
      { props := [("eval", Descriptor.installed "eval"),
          ("setTimeout", Descriptor.installed "setTimeout"),
          ("Math", Descriptor.orig 2),
          ("MY_KEY", Descriptor.injected "MY_KEY")]
        marker := some "call-1"
        nextTimer := 5
        liveTimers := [3]
        emitted := [] }
    let ops : List SandboxOp := [SandboxOp.setTimer,
      SandboxOp.beginFetch sampleFetch, SandboxOp.setTimer,
      SandboxOp.clearTimer 5]
    ∃ envF,
      ctxClose (applyOps (ctx1, env1) ops).1 (applyOps (ctx1, env1) ops).2 "T"
        = .ok envF ∧
      (∀ r ∈ (applyOps (ctx1, env1) ops).1.pendingFetches,
        stampEnd r "T" ∈ envF.emitted) ∧
      (∀ id, env0.nextTimer ≤ id → id ∉ envF.liveTimers) ∧
      (∀ k ∈ ["MY_KEY"], envF.props.lookup k = none) ∧
      (∀ k d, (k, d) ∈ env0.props → envF.props.lookup k = some d) :=
  c8_close_restores_environment
    { props := [("eval", Descriptor.orig 0), ("setTimeout", Descriptor.orig 1),
        ("Math", Descriptor.orig 2)]
      marker := none
      nextTimer := 5
      liveTimers := [3]
      emitted := [] }
    "call-1" ["MY_KEY"]
    [SandboxOp.setTimer, SandboxOp.beginFetch sampleFetch,
      SandboxOp.setTimer, SandboxOp.clearTimer 5]
    "T"
    { cid := "call-1"
      customGlobals := ["MY_KEY"]
      origProps := [("eval", Descriptor.orig 0),
        ("setTimeout", Descriptor.orig 1), ("Math", Descriptor.orig 2)]
      timers := []
      pendingFetches := [] }
    { props := [("eval", Descriptor.installed "eval"),
        ("setTimeout", Descriptor.installed "setTimeout"),
        ("Math", Descriptor.orig 2),
        ("MY_KEY", Descriptor.injected "MY_KEY")]
      marker := some "call-1"
      nextTimer := 5
      liveTimers := [3]
      emitted := [] }
    rfl (by decide) (by decide)

end L3
